import Mathlib

/-!
Verification development for the Einharjar Industries trading core.

The definitions below are a shallow embedding of the Python source:

* `app/inventory_service.py` — FIFO inventory ledger
  (`create_lot_from_import`, `consume_lot_fifo`);
* `app/wallet_sync.py` — incremental wallet reconciler
  (`_sync_wallet_for_character`, `_enqueue_wallet_tx`,
  `_save_wallet_sync_state`, `_record_sale_from_tx`);
* `app/esi_client.py` — ESI gateway (`esi_get`, `_request_with_retries`,
  `_get_cached_response`, `_store_cache_response`).

Machine integers of the source are Python arbitrary-precision integers and
are modelled as `Int`; timestamps (naive UTC datetimes) are modelled as
`Int` instants; float prices are carried opaquely as `Int` values (no
arithmetic is ever performed on them in the embedded code).  Database
tables are lists of rows; the SQLAlchemy session is threaded explicitly.
Exceptions become `Except` values.
-/

namespace EI

instance {ε α : Type} [DecidableEq ε] [DecidableEq α] : DecidableEq (Except ε α) := fun a b =>
  match a, b with
  | .ok x, .ok y =>
      if h : x = y then .isTrue (by rw [h]) else .isFalse (by intro hc; cases hc; exact h rfl)
  | .error x, .error y =>
      if h : x = y then .isTrue (by rw [h]) else .isFalse (by intro hc; cases hc; exact h rfl)
  | .ok _, .error _ => .isFalse (by intro hc; cases hc)
  | .error _, .ok _ => .isFalse (by intro hc; cases hc)

/-! ## Inventory ledger — `app/inventory_service.py` -/

/-- Row of the `inventory_lots` table (`models.InventoryLot`). -/
structure InventoryLot where
  id : Int
  item_id : Int
  quantity_total : Int
  quantity_remaining : Int
  unit_cost : Int
  acquired_at : Int
deriving Repr, DecidableEq

/-- Row of the `inventory_events` audit table (`models.InventoryEvent`). -/
structure InventoryEvent where
  event_type : String
  eve_time : Int
  item_id : Int
  lot_id : Int
  quantity : Int
  unit_price : Option Int
  note : Option String
deriving Repr, DecidableEq

/-- `InsufficientInventoryError` and the `AssertionError` raised at
`inventory_service.py:124` when a lot would go negative. -/
inductive ConsumeError where
  | insufficient (item_id requested available : Int)
  | negative_lot
deriving Repr, DecidableEq

/-- The dict returned by `consume_lot_fifo` (keys in source order). -/
structure ConsumeResult where
  events : List InventoryEvent
  consumed : Int
  requested : Int
  remaining_request : Int
  total_available_before : Int
deriving Repr, DecidableEq

/-- Result of a `consume_lot_fifo` call together with the session state it
leaves behind: the lot table after the call and the audit events that were
`db.add`ed (on an exception the table/events reflect writes made before the
raise). -/
structure ConsumeOutcome where
  table : List InventoryLot
  emitted : List InventoryEvent
  result : Except ConsumeError ConsumeResult
deriving Repr, DecidableEq

/-- FIFO ordering used by the lot query:
`ORDER BY acquired_at ASC, id ASC` (`inventory_service.py:98`). -/
def fifoLotLE (a b : InventoryLot) : Prop :=
  a.acquired_at < b.acquired_at ∨ (a.acquired_at = b.acquired_at ∧ a.id ≤ b.id)

instance : DecidableRel fifoLotLE := fun a b => by
  unfold fifoLotLE; infer_instance

instance : IsTotal InventoryLot fifoLotLE :=
  ⟨fun a b => by unfold fifoLotLE; omega⟩

instance : IsTrans InventoryLot fifoLotLE :=
  ⟨fun a b c hab hbc => by unfold fifoLotLE at *; omega⟩

/-- The lot query of `consume_lot_fifo` (`inventory_service.py:92-101`):
lots of the item with positive remaining quantity, ordered by
`(acquired_at, id)` ascending. -/
def selectLots (table : List InventoryLot) (item_id : Int) : List InventoryLot :=
  List.insertionSort fifoLotLE
    (table.filter (fun l => l.item_id == item_id && decide (l.quantity_remaining > 0)))

/-- `total_available = sum(l.quantity_remaining for l in lots)`. -/
def totalAvailable (lots : List InventoryLot) : Int :=
  (lots.map (fun l => l.quantity_remaining)).sum

/-- State of the consumption loop of `consume_lot_fifo`
(`inventory_service.py:115-139`) after processing a list of lots. -/
structure LoopOut where
  lots : List InventoryLot
  events : List InventoryEvent
  remaining : Int
  consumed : Int
  assert_failed : Bool
deriving Repr, DecidableEq

/-- The `for lot in lots` loop of `consume_lot_fifo`
(`inventory_service.py:115-139`), one recursive step per lot.
`assert_failed` records the `AssertionError` branch at line 123-124
(raised after the decrement, before the event is recorded). -/
def consumeStep (item_id : Int) (event_type : String) (event_time : Int)
    (unit_price : Option Int) (note : Option String) :
    List InventoryLot → Int → LoopOut
  | [], remaining => ⟨[], [], remaining, 0, false⟩
  | lot :: rest, remaining =>
    if remaining ≤ 0 then
      ⟨lot :: rest, [], remaining, 0, false⟩
    else
      let take := min lot.quantity_remaining remaining
      if take ≤ 0 then
        let o := consumeStep item_id event_type event_time unit_price note rest remaining
        ⟨lot :: o.lots, o.events, o.remaining, o.consumed, o.assert_failed⟩
      else
        let lot' := { lot with quantity_remaining := lot.quantity_remaining - take }
        if lot'.quantity_remaining < 0 then
          ⟨lot' :: rest, [], remaining, 0, true⟩
        else
          let ev : InventoryEvent :=
            ⟨event_type, event_time, item_id, lot.id, take, unit_price, note⟩
          let o := consumeStep item_id event_type event_time unit_price note rest
              (remaining - take)
          ⟨lot' :: o.lots, ev :: o.events, o.remaining, take + o.consumed, o.assert_failed⟩

/-- Write the loop's in-place mutations of the selected ORM objects back
into the table: a row whose id appears among the updated lots is that
updated object (SQLAlchemy identity map), any other row is untouched. -/
def applyUpdates (table updated : List InventoryLot) : List InventoryLot :=
  table.map (fun row =>
    match updated.find? (fun u => u.id == row.id) with
    | some u => u
    | none => row)

/-- `consume_lot_fifo` (`inventory_service.py:70-147`).
`allow_shortfall` is the source's `allow_partial` keyword. -/
def consume_lot_fifo (table : List InventoryLot) (item_id : Int) (quantity : Int)
    (event_time : Int) (event_type : String) (note : Option String)
    (unit_price : Option Int) (allow_shortfall : Bool) : ConsumeOutcome :=
  if quantity ≤ 0 then
    ⟨table, [], .ok ⟨[], 0, quantity, 0, 0⟩⟩
  else
    let lots := selectLots table item_id
    let total_available := totalAvailable lots
    if !allow_shortfall && decide (total_available < quantity) then
      ⟨table, [], .error (.insufficient item_id quantity total_available)⟩
    else
      let o := consumeStep item_id event_type event_time unit_price note lots quantity
      let table' := applyUpdates table o.lots
      if o.assert_failed then
        ⟨table', o.events, .error .negative_lot⟩
      else
        ⟨table', o.events,
          .ok ⟨o.events, o.consumed, quantity, max o.remaining 0, total_available⟩⟩

/-- `create_lot_from_import` (`inventory_service.py:24-67`).  `lot_id` is
the primary key the store assigns at `flush`; `now` stands for
`datetime.utcnow()`.  Returns the persisted lot and its import event. -/
def create_lot_from_import (item_id : Int) (quantity : Int) (unit_cost : Int)
    (acquired_at : Option Int) (note : Option String) (eve_time : Option Int)
    (lot_id : Int) (now : Int) : Except String (InventoryLot × InventoryEvent) :=
  if quantity ≤ 0 then
    .error "Quantity must be positive for inventory imports."
  else
    let acquired := acquired_at.getD now
    let event_time := eve_time.getD acquired
    let lot : InventoryLot := ⟨lot_id, item_id, quantity, quantity, unit_cost, acquired⟩
    let event : InventoryEvent :=
      ⟨"import", event_time, item_id, lot_id, quantity, some unit_cost, note⟩
    .ok (lot, event)

/-! ## Wallet reconciler — `app/wallet_sync.py` -/

/-- The slice of `models.EveCharacter` the reconciler reads. -/
structure EveCharacter where
  id : Int
  character_id : Int
  wallet_scan_buys : Bool
  wallet_scan_sells : Bool
deriving Repr, DecidableEq

/-- One remote wallet transaction as delivered by ESI.  `date` is the
already-parsed naive-UTC instant (`_parse_eve_time`). -/
structure WalletTx where
  transaction_id : Int
  quantity : Int
  is_buy : Bool
  type_id : Int
  unit_price : Int
  date : Int
deriving Repr, DecidableEq

/-- Row of `models.EsiWalletSyncState` (the persisted cursor).
`last_sync_at` and the trimmed message are elided: no claim concerns
them. -/
structure EsiWalletSyncState where
  last_transaction_id : Option Int
  last_sync_status : Option String
deriving Repr, DecidableEq

/-- Row of `models.EsiWalletQueueEntry` (the pending-review buy queue).
`location_id`/`location_name` are elided: no claim concerns them. -/
structure EsiWalletQueueEntry where
  source_kind : String
  character_id : Int
  transaction_id : Int
  direction : String
  item_id : Int
  quantity : Int
  unit_price : Int
  eve_time : Int
  status : String
deriving Repr, DecidableEq

/-- The `stats` dict built by `_sync_wallet_for_character`
(`wallet_sync.py:119-129`, plus the `sync_status` key added later). -/
structure SyncStats where
  new_transactions : Int
  queued_imports : Int
  auto_sales : Int
  unmatched_sale_units : Int
  skipped_buys_disabled : Int
  skipped_sells_disabled : Int
  scanning_disabled : Bool
  sync_status : String
deriving Repr, DecidableEq

/-- Initial value of the `stats` dict (`wallet_sync.py:119-129`). -/
def initialSyncStats : SyncStats := ⟨0, 0, 0, 0, 0, 0, false, ""⟩

/-- The persistent state one character's sync run touches: the inventory
ledger (lots and audit events), the pending-review buy queue and the
character's sync-state row. -/
structure LedgerWorld where
  lots : List InventoryLot
  events : List InventoryEvent
  queue : List EsiWalletQueueEntry
  state : Option EsiWalletSyncState
deriving Repr, DecidableEq

/-- The stored cursor as `_sync_wallet_for_character` reads it
(`wallet_sync.py:132`): `state.last_transaction_id if state else None`. -/
def cursorOf (w : LedgerWorld) : Option Int :=
  match w.state with
  | some s => s.last_transaction_id
  | none => none

/-- `_save_wallet_sync_state` (`wallet_sync.py:52-78`): creates the state
row when absent, overwrites `last_transaction_id` only when the argument
is not `None`, and records the status. -/
def _save_wallet_sync_state (state : Option EsiWalletSyncState)
    (last_transaction_id : Option Int) (sync_status : String) : EsiWalletSyncState :=
  let s := state.getD ⟨none, none⟩
  let s := match last_transaction_id with
    | some v => { s with last_transaction_id := some v }
    | none => s
  { s with last_sync_status := some sync_status }

/-- `_enqueue_wallet_tx` (`wallet_sync.py:368-418`): append one pending
queue entry unless the `(source_kind, character, transaction)` key already
exists; returns whether a new entry was created. -/
def _enqueue_wallet_tx (queue : List EsiWalletQueueEntry) (character : EveCharacter)
    (tx : WalletTx) (item_id : Int) : List EsiWalletQueueEntry × Bool :=
  if !tx.is_buy then
    (queue, false)
  else if (queue.find? (fun e => e.source_kind == "character" &&
      e.character_id == character.id && e.transaction_id == tx.transaction_id)).isSome then
    (queue, false)
  else
    (queue ++ [⟨"character", character.id, tx.transaction_id, "import", item_id,
      tx.quantity, tx.unit_price, tx.date, "pending"⟩], true)

/-- The stats dict returned by `_record_sale_from_tx`. -/
structure SaleStats where
  requested : Int
  consumed : Int
  unmatched : Int
  total_available_before : Int
deriving Repr, DecidableEq

/-- `_record_sale_from_tx` (`wallet_sync.py:264-293`): consume inventory
FIFO with `allow_partial=True` and report the shortfall as `unmatched`. -/
def _record_sale_from_tx (lots : List InventoryLot) (item_id qty unit_price eve_time : Int) :
    Except ConsumeError (List InventoryLot × List InventoryEvent × SaleStats) :=
  let outcome := consume_lot_fifo lots item_id qty eve_time "sale" (some "Wallet sell")
    (some unit_price) true
  match outcome.result with
  | .error e => .error e
  | .ok r => .ok (outcome.table, outcome.emitted,
      ⟨qty, r.consumed, r.remaining_request, r.total_available_before⟩)

/-- Sort key of `wallet_sync.py:155`: ascending remote transaction id. -/
def txLE (a b : WalletTx) : Prop := a.transaction_id ≤ b.transaction_id

instance : DecidableRel txLE := fun a b => by
  unfold txLE; infer_instance

instance : IsTotal WalletTx txLE :=
  ⟨fun a b => by unfold txLE; omega⟩

instance : IsTrans WalletTx txLE :=
  ⟨fun a b c hab hbc => by unfold txLE at *; omega⟩

/-- Loop state of the `for tx in txs` loop of `_sync_wallet_for_character`
(`wallet_sync.py:159-211`). -/
structure SyncAcc where
  lots : List InventoryLot
  events : List InventoryEvent
  queue : List EsiWalletQueueEntry
  new_last_id : Int
  stats : SyncStats
deriving Repr, DecidableEq

/-- One iteration of the transaction loop (`wallet_sync.py:159-211`).
`item_of` stands for `get_or_create_item_from_type_id`, abstracted as a
resolution map from remote type id to local item id (the claims never
constrain the item table itself). -/
def syncStep (character : EveCharacter) (last_id : Option Int) (item_of : Int → Int)
    (acc : SyncAcc) (tx : WalletTx) : Except ConsumeError SyncAcc :=
  if (match last_id with | some l => decide (tx.transaction_id ≤ l) | none => false) then
    .ok acc
  else if tx.quantity ≤ 0 then
    .ok acc
  else
    let item_id := item_of tx.type_id
    if tx.is_buy then
      if !character.wallet_scan_buys then
        .ok { acc with
          stats := { acc.stats with
            skipped_buys_disabled := acc.stats.skipped_buys_disabled + 1 },
          new_last_id := if tx.transaction_id > acc.new_last_id then tx.transaction_id
            else acc.new_last_id }
      else
        let qc := _enqueue_wallet_tx acc.queue character tx item_id
        let stats' := if qc.2 then
            { acc.stats with
              queued_imports := acc.stats.queued_imports + 1,
              new_transactions := acc.stats.new_transactions + 1 }
          else acc.stats
        .ok { acc with
          queue := qc.1, stats := stats',
          new_last_id := if tx.transaction_id > acc.new_last_id then tx.transaction_id
            else acc.new_last_id }
    else
      if !character.wallet_scan_sells then
        .ok { acc with
          stats := { acc.stats with
            skipped_sells_disabled := acc.stats.skipped_sells_disabled + 1 },
          new_last_id := if tx.transaction_id > acc.new_last_id then tx.transaction_id
            else acc.new_last_id }
      else
        match _record_sale_from_tx acc.lots item_id tx.quantity tx.unit_price tx.date with
        | .error e => .error e
        | .ok (lots', emitted, sale_stats) =>
          .ok { acc with
            lots := lots', events := acc.events ++ emitted,
            stats := { acc.stats with
              auto_sales := acc.stats.auto_sales + 1,
              unmatched_sale_units := acc.stats.unmatched_sale_units + sale_stats.unmatched,
              new_transactions := acc.stats.new_transactions + 1 },
            new_last_id := if tx.transaction_id > acc.new_last_id then tx.transaction_id
              else acc.new_last_id }

/-- `_sync_wallet_for_character` (`wallet_sync.py:112-227`): one
character's reconciliation run over the fetched transaction list.  An
exception inside the loop propagates as `.error` (the caller rolls the
session back). -/
def _sync_wallet_for_character (w : LedgerWorld) (character : EveCharacter)
    (tx_data : List WalletTx) (item_of : Int → Int) :
    Except ConsumeError (LedgerWorld × SyncStats) :=
  let last_id := cursorOf w
  if !character.wallet_scan_buys && !character.wallet_scan_sells then
    let stats := { initialSyncStats with
      scanning_disabled := true, sync_status := "skipped" }
    let state' := _save_wallet_sync_state w.state none "skipped"
    .ok ({ w with state := some state' }, stats)
  else
    let txs := List.insertionSort txLE tx_data
    let acc0 : SyncAcc := ⟨w.lots, w.events, w.queue, last_id.getD 0, initialSyncStats⟩
    match txs.foldlM (syncStep character last_id item_of) acc0 with
    | .error e => .error e
    | .ok acc =>
      let progressed := match last_id with
        | none => true
        | some l => decide (acc.new_last_id > l)
      let stats := { acc.stats with sync_status := "ok" }
      let state' := _save_wallet_sync_state w.state
        (if progressed then some acc.new_last_id else none) "ok"
      .ok (⟨acc.lots, acc.events, acc.queue, some state'⟩, stats)

/-- Whether a transaction row contributes to the run's high-water mark:
it lies above the old cursor and survives the zero-or-negative-quantity
skip at `wallet_sync.py:164-165`. -/
def countedTx (last_id : Option Int) (t : WalletTx) : Bool :=
  (match last_id with | some l => decide (t.transaction_id > l) | none => true) &&
    decide (t.quantity > 0)

/-- The high-water mark a run actually computes: the maximum of the old
cursor's base value and every counted transaction id. -/
def observedHwm (last_id : Option Int) (tx_data : List WalletTx) : Int :=
  ((List.insertionSort txLE tx_data).filter (countedTx last_id)).foldl
    (fun m t => max m t.transaction_id) (last_id.getD 0)

/-- Cursor stored after a run, `none` when the run failed. -/
def runCursor (r : Except ConsumeError (LedgerWorld × SyncStats)) : Option Int :=
  match r with
  | .ok (w, _) => cursorOf w
  | .error _ => none

/-! ## ESI gateway — `app/esi_client.py` -/

/-- One cached response (`_cache` entry, `esi_client.py:106-120`):
payload (JSON values abstracted as `Option Int`, `none` being JSON null),
`Expires` instant, `ETag` (tags abstracted as `Int`). -/
structure CacheEntry where
  data : Option Int
  expires_at : Option Int
  etag : Option Int
deriving Repr, DecidableEq

/-- Cache fingerprint `(path, serialized params, auth identity)`; the
method prefix `GET` of `_cache_key` is constant and omitted. -/
abbrev CacheKey := String × String × String

/-- The in-memory `_cache` dict, as an association list with the dict's
unique-key discipline (`find?` reads the binding, `eraseP` removes it). -/
abbrev Cache := List (CacheKey × CacheEntry)

/-- `_get_cached_response` (`esi_client.py:94-103`): a hit past its
`expires_at` is popped from the cache and reported as a miss, whatever
else the entry carries. -/
def _get_cached_response (cache : Cache) (key : CacheKey) (now : Int) :
    Cache × Option CacheEntry :=
  match cache.find? (fun kv => kv.1 == key) with
  | none => (cache, none)
  | some kv =>
    match kv.2.expires_at with
    | some v =>
      if v ≤ now then (cache.eraseP (fun kv => kv.1 == key), none)
      else (cache, some kv.2)
    | none => (cache, some kv.2)

/-- `_store_cache_response` (`esi_client.py:106-120`): store only entries
whose expiry lies strictly in the future. -/
def _store_cache_response (cache : Cache) (key : CacheKey) (data : Option Int)
    (expires_at : Option Int) (etag : Option Int) (now : Int) : Cache :=
  match expires_at with
  | none => cache
  | some v =>
    if v ≤ now then cache
    else (key, ⟨data, expires_at, etag⟩) :: cache.eraseP (fun kv => kv.1 == key)

/-- `ERROR_LIMIT_THRESHOLD = 2` (`esi_client.py:40`). -/
def ERROR_LIMIT_THRESHOLD : Int := 2

/-- `MAX_RETRIES = 3` (`esi_client.py:41`). -/
def MAX_RETRIES : Nat := 3

/-- Python's `x or d` on an optional integer: `None` and `0` are falsy. -/
def pyOr (x : Option Int) (d : Int) : Int :=
  match x with
  | some v => if v = 0 then d else v
  | none => d

/-- One HTTP response: status, the `X-ESI-Error-Limit-Remain` /
`X-ESI-Error-Limit-Reset` headers, parsed JSON body, parsed `Expires`
header and `ETag` header. -/
structure HttpResponse where
  status : Nat
  remain : Option Int
  reset : Option Int
  body : Option Int
  expires : Option Int
  etag : Option Int
deriving Repr, DecidableEq

/-- Outcome of one network attempt: a transport-level failure
(`httpx.RequestError`) or a response. -/
inductive AttemptOutcome where
  | transport_error
  | response (r : HttpResponse)
deriving Repr, DecidableEq

/-- Error taxonomy of the gateway: `ValueError` for a malformed path,
`ESIThrottleError`, and the `ESIClientError` cases distinguished by how
they are raised in `_request_with_retries` / `esi_get`. -/
inductive EsiErrorKind where
  | value_error
  | transport
  | throttle
  | server
  | client
  | exhausted
deriving Repr, DecidableEq

/-- An `ESIClientError`-family value: its kind and its `status_code`. -/
structure EsiError where
  kind : EsiErrorKind
  status : Int
deriving Repr, DecidableEq

/-- Result of `_request_with_retries`: the Error-Budget Governor state
(`_error_pause_until`), the unconsumed tail of the scripted attempt
outcomes (each loop iteration consumes exactly one network attempt), and
the response or error. -/
structure AttemptResult where
  governor : Option Int
  script : List AttemptOutcome
  result : Except EsiError HttpResponse
deriving Repr, DecidableEq

/-- `_request_with_retries` (`esi_client.py:239-311`), recursing on the
number of attempts left (`attempt = MAX_RETRIES` corresponds to one
attempt left).  `_maybe_wait_for_error_window` at the top of each
iteration waits any active cooldown out and clears it; wall-clock time is
frozen at `now` (backoff sleeps are irrelevant to the claims).  A
scripted list shorter than the attempts taken behaves as transport
errors. -/
def _request_with_retries (now : Int) (cache_present : Bool) :
    Nat → Option Int → List AttemptOutcome → AttemptResult
  | 0, gov, script => ⟨gov, script, .error ⟨.exhausted, -1⟩⟩
  | n+1, _gov, script =>
    -- _maybe_wait_for_error_window: cooldown waited out and reset
    let gov : Option Int := none
    let outcome := script.headD .transport_error
    let rest := script.tail
    match outcome with
    | .transport_error =>
      if n = 0 then ⟨gov, rest, .error ⟨.transport, -1⟩⟩
      else _request_with_retries now cache_present n gov rest
    | .response r =>
      -- pre-emptive throttle when the error budget runs low
      let gov := match r.remain, r.reset with
        | some remain, some reset =>
          if remain ≤ ERROR_LIMIT_THRESHOLD then some (now + max reset 1) else gov
        | _, _ => gov
      if r.status == 304 && cache_present then ⟨gov, rest, .ok r⟩
      else if r.status == 420 then
        ⟨some (now + max (pyOr r.reset 60) 1), rest, .error ⟨.throttle, 420⟩⟩
      else if r.status == 429 then
        let gov := some (now + max (pyOr r.reset 10) 1)
        if n = 0 then ⟨gov, rest, .error ⟨.throttle, 429⟩⟩
        else _request_with_retries now cache_present n gov rest
      else if 500 ≤ r.status && r.status < 600 then
        if n = 0 then ⟨gov, rest, .error ⟨.server, r.status⟩⟩
        else _request_with_retries now cache_present n gov rest
      else if r.status ≥ 400 then ⟨gov, rest, .error ⟨.client, r.status⟩⟩
      else ⟨gov, rest, .ok r⟩

/-- The gateway state a single `esi_get` call touches: the response
cache, the Error-Budget Governor and the scripted network attempts. -/
structure GatewayWorld where
  cache : Cache
  governor : Option Int
  script : List AttemptOutcome
deriving Repr, DecidableEq

/-- Result of an `esi_get` call: the gateway state afterwards, the
`If-None-Match` header of the issued request (`none` when no request was
issued or no tag was attached) and the returned JSON value or error. -/
structure EsiGetResult where
  world : GatewayWorld
  sent_if_none_match : Option Int
  result : Except EsiError (Option Int)
deriving Repr, DecidableEq

/-- The network-and-store tail of `esi_get` (`esi_client.py:356-394`),
entered after the cache consultation. -/
def esiGetRequest (cache : Cache) (gov : Option Int) (script : List AttemptOutcome)
    (key : CacheKey) (cache_entry : Option CacheEntry) (now : Int) : EsiGetResult :=
  let if_none_match : Option Int := match cache_entry with
    | some e => e.etag
    | none => none
  let ar := _request_with_retries now cache_entry.isSome MAX_RETRIES gov script
  match ar.result, cache_entry with
  | .ok resp, some entry =>
    if resp.status == 304 then
      let expires := match resp.expires with
        | some v => some v
        | none => entry.expires_at
      let cache' := _store_cache_response cache key entry.data expires entry.etag now
      ⟨⟨cache', ar.governor, ar.script⟩, if_none_match, .ok entry.data⟩
    else
      let cache' := _store_cache_response cache key resp.body resp.expires resp.etag now
      ⟨⟨cache', ar.governor, ar.script⟩, if_none_match, .ok resp.body⟩
  | .ok resp, none =>
    let cache' := _store_cache_response cache key resp.body resp.expires resp.etag now
    ⟨⟨cache', ar.governor, ar.script⟩, if_none_match, .ok resp.body⟩
  | .error e, _ => ⟨⟨cache, ar.governor, ar.script⟩, if_none_match, .error e⟩

/-- `esi_get` (`esi_client.py:314-394`).  `params` is the serialized
query-parameter dump and `identity` the `_auth_identity` string; the
`X-Compatibility-Date` and `Authorization` headers do not affect any
claim and are elided.  The path guard `path.startswith('/')` is the first
statement of the function. -/
def esi_get (w : GatewayWorld) (path params identity : String)
    (force_refresh : Bool) (now : Int) : EsiGetResult :=
  if !(path.data.head? == some '/') then
    ⟨w, none, .error ⟨.value_error, -1⟩⟩
  else
    let key : CacheKey := (path, params, identity)
    let consulted := if !force_refresh then _get_cached_response w.cache key now
      else (w.cache, none)
    match consulted.2 with
    | some entry =>
      if entry.data.isSome then
        ⟨⟨consulted.1, w.governor, w.script⟩, none, .ok entry.data⟩
      else
        esiGetRequest consulted.1 w.governor w.script key (some entry) now
    | none => esiGetRequest consulted.1 w.governor w.script key none now

/-- Concrete two-lot table used by the C2 witness: L1 (5 units, acquired
first) and L2 (5 units, acquired later) of item 7. -/
def fifoWitnessTable : List InventoryLot :=
  [⟨1, 7, 5, 5, 100, 10⟩, ⟨2, 7, 5, 5, 100, 20⟩]

/-- Claim C1: with `allow_partial=false` and total available remaining
quantity strictly below the request, `consume_lot_fifo` fails with an
`InsufficientInventoryError` carrying the requested and available amounts,
mutates no lot and emits no audit event — the all-or-nothing check precedes
any write. -/
theorem claim1_insufficient_fails_before_write (table : List InventoryLot) (item_id quantity event_time : Int)
    (event_type : String) (note : Option String) (unit_price : Option Int)
    (hq : 0 < quantity)
    (hlt : totalAvailable (selectLots table item_id) < quantity) :
    consume_lot_fifo table item_id quantity event_time event_type note unit_price false =
      ⟨table, [], .error (.insufficient item_id quantity
        (totalAvailable (selectLots table item_id)))⟩ := by
  unfold consume_lot_fifo
  rw [if_neg (by omega : ¬ quantity ≤ 0)]
  simp [hlt]

/-- Claim C10: a `consume_lot_fifo` request for a quantity of zero or less
returns zero consumed, zero unmatched remainder and an empty event list
without reading or mutating any lot and without emitting any audit event,
for both values of `allow_partial`. -/
theorem claim10_nonpositive_request_noop (table : List InventoryLot) (item_id quantity event_time : Int)
    (event_type : String) (note : Option String) (unit_price : Option Int)
    (allow_shortfall : Bool) (hq : quantity ≤ 0) :
    consume_lot_fifo table item_id quantity event_time event_type note unit_price
        allow_shortfall = ⟨table, [], .ok ⟨[], 0, quantity, 0, 0⟩⟩ := by
  unfold consume_lot_fifo
  rw [if_pos hq]

theorem consumeStep_lots_of_nonpos (item_id : Int) (event_type : String) (event_time : Int)
    (unit_price : Option Int) (note : Option String) (lots : List InventoryLot)
    (remaining : Int) (h : remaining ≤ 0) :
    (consumeStep item_id event_type event_time unit_price note lots remaining).lots = lots := by
  cases lots with
  | nil => simp [consumeStep]
  | cons lot rest => simp [consumeStep, h]

theorem consumeStep_length (item_id : Int) (event_type : String) (event_time : Int)
    (unit_price : Option Int) (note : Option String) :
    ∀ (lots : List InventoryLot) (remaining : Int),
    (consumeStep item_id event_type event_time unit_price note lots remaining).lots.length
      = lots.length := by
  intro lots
  induction lots with
  | nil => intro r; simp [consumeStep]
  | cons lot rest ih =>
    intro r
    by_cases h1 : r ≤ 0
    · simp [consumeStep, h1]
    · by_cases h2 : min lot.quantity_remaining r ≤ 0
      · simp [consumeStep, h1, h2, ih]
      · by_cases h3 : lot.quantity_remaining - min lot.quantity_remaining r < 0
        · exact absurd h3 (by omega)
        · simp [consumeStep, h1, h2, h3, ih]

theorem consumeStep_assert_false (item_id : Int) (event_type : String) (event_time : Int)
    (unit_price : Option Int) (note : Option String) :
    ∀ (lots : List InventoryLot) (remaining : Int),
    (consumeStep item_id event_type event_time unit_price note lots remaining).assert_failed
      = false := by
  intro lots
  induction lots with
  | nil => intro r; simp [consumeStep]
  | cons lot rest ih =>
    intro r
    by_cases h1 : r ≤ 0
    · simp [consumeStep, h1]
    · by_cases h2 : min lot.quantity_remaining r ≤ 0
      · simp [consumeStep, h1, h2, ih]
      · by_cases h3 : lot.quantity_remaining - min lot.quantity_remaining r < 0
        · exact absurd h3 (by omega)
        · simp [consumeStep, h1, h2, h3, ih]

theorem consumeStep_mem (item_id : Int) (event_type : String) (event_time : Int)
    (unit_price : Option Int) (note : Option String) :
    ∀ (lots : List InventoryLot) (remaining : Int),
    ∀ u ∈ (consumeStep item_id event_type event_time unit_price note lots remaining).lots,
      ∃ l, l ∈ lots ∧ u.id = l.id ∧ u.item_id = l.item_id ∧
        u.quantity_total = l.quantity_total ∧ u.unit_cost = l.unit_cost ∧
        u.acquired_at = l.acquired_at ∧ u.quantity_remaining ≤ l.quantity_remaining ∧
        (0 ≤ l.quantity_remaining → 0 ≤ u.quantity_remaining) := by
  intro lots
  induction lots with
  | nil => intro r u hu; simp [consumeStep] at hu
  | cons lot rest ih =>
    intro r u hu
    by_cases h1 : r ≤ 0
    · simp only [consumeStep, if_pos h1] at hu
      rcases List.mem_cons.mp hu with h | h
      · exact ⟨lot, List.mem_cons_self _ _, by simp [h]⟩
      · exact ⟨u, List.mem_cons_of_mem _ h, by simp⟩
    · by_cases h2 : min lot.quantity_remaining r ≤ 0
      · simp only [consumeStep, if_neg h1, if_pos h2] at hu
        rcases List.mem_cons.mp hu with h | h
        · exact ⟨lot, List.mem_cons_self _ _, by simp [h]⟩
        · obtain ⟨l, hl, hrest⟩ := ih r u h
          exact ⟨l, List.mem_cons_of_mem _ hl, hrest⟩
      · by_cases h3 : lot.quantity_remaining - min lot.quantity_remaining r < 0
        · exact absurd h3 (by omega)
        · simp only [consumeStep, if_neg h1, if_neg h2, if_neg h3] at hu
          rcases List.mem_cons.mp hu with h | h
          · refine ⟨lot, List.mem_cons_self _ _, ?_⟩
            subst h
            refine ⟨rfl, rfl, rfl, rfl, rfl, ?_, ?_⟩ <;> · dsimp only; omega
          · obtain ⟨l, hl, hrest⟩ := ih (r - min lot.quantity_remaining r) u h
            exact ⟨l, List.mem_cons_of_mem _ hl, hrest⟩

theorem consumeStep_fifo_exhausts (item_id : Int) (event_type : String) (event_time : Int)
    (unit_price : Option Int) (note : Option String) :
    ∀ (lots : List InventoryLot) (remaining : Int),
      (∀ l ∈ lots, 0 < l.quantity_remaining) →
      ∀ i j (hj : j < lots.length)
        (hj' : j <
          (consumeStep item_id event_type event_time unit_price note lots remaining).lots.length)
        (hi : i <
          (consumeStep item_id event_type event_time unit_price note lots remaining).lots.length),
        i < j →
        ((consumeStep item_id event_type event_time unit_price note lots
            remaining).lots[j]).quantity_remaining < (lots[j]).quantity_remaining →
        ((consumeStep item_id event_type event_time unit_price note lots
            remaining).lots[i]).quantity_remaining = 0 := by
  intro lots
  induction lots with
  | nil => intro r _ i j hj; simp at hj
  | cons lot rest ih =>
    intro r hpos i j hj hj' hi hij hdec
    by_cases h1 : r ≤ 0
    · have he := consumeStep_lots_of_nonpos item_id event_type event_time unit_price note
        (lot :: rest) r h1
      simp only [he] at hdec
      exact absurd hdec (lt_irrefl _)
    · have hlotpos : 0 < lot.quantity_remaining := hpos lot (List.mem_cons_self _ _)
      by_cases h2 : min lot.quantity_remaining r ≤ 0
      · exact absurd h2 (by omega)
      · by_cases h3 : lot.quantity_remaining - min lot.quantity_remaining r < 0
        · exact absurd h3 (by omega)
        · simp only [consumeStep, if_neg h1, if_neg h2, if_neg h3] at hdec hi hj' ⊢
          match j, hj, hj', hij with
          | j'+1, hj, hj', hij =>
            rw [List.getElem_cons_succ, List.getElem_cons_succ] at hdec
            match i, hi with
            | 0, hi =>
              -- head must be exhausted
              dsimp only [List.getElem_cons_zero]
              by_cases hq : lot.quantity_remaining ≤ r
              · dsimp only; omega
              · -- r < lot.quantity_remaining: the request ended at the head lot,
                -- so the tail is untouched and no later lot was decremented
                have hz : r - min lot.quantity_remaining r ≤ 0 := by omega
                have he := consumeStep_lots_of_nonpos item_id event_type event_time unit_price
                  note rest (r - min lot.quantity_remaining r) hz
                simp only [he] at hdec
                exact absurd hdec (lt_irrefl _)
            | i'+1, hi =>
              rw [List.getElem_cons_succ]
              have hi'' : i' < (consumeStep item_id event_type event_time unit_price note rest
                  (r - min lot.quantity_remaining r)).lots.length := by
                simpa using Nat.lt_of_succ_lt_succ hi
              exact ih (r - min lot.quantity_remaining r)
                (fun l hl => hpos l (List.mem_cons_of_mem _ hl)) i' j'
                (Nat.lt_of_succ_lt_succ hj) (by simpa using Nat.lt_of_succ_lt_succ hj') hi''
                (Nat.lt_of_succ_lt_succ hij) hdec

theorem selectLots_sorted (table : List InventoryLot) (item_id : Int) :
    List.Sorted fifoLotLE (selectLots table item_id) :=
  List.sorted_insertionSort fifoLotLE _

theorem mem_selectLots (table : List InventoryLot) (item_id : Int) :
    ∀ l ∈ selectLots table item_id,
      l ∈ table ∧ l.item_id = item_id ∧ 0 < l.quantity_remaining := by
  intro l hl
  unfold selectLots at hl
  have hmem := (List.perm_insertionSort fifoLotLE _).mem_iff.mp hl
  have hcond := List.of_mem_filter hmem
  have htab := List.mem_of_mem_filter hmem
  simp only [Bool.and_eq_true, beq_iff_eq, decide_eq_true_eq] at hcond
  exact ⟨htab, hcond.1, hcond.2⟩

/-- Claim C2: `consume_lot_fifo` walks the item's positive-remainder lots in
ascending `(acquired_at, id)` order, taking `min(lot remaining, still needed)`
from each; a later lot is never decremented before every earlier lot is
exhausted; on lots L1 (5 units, acquired first) and L2 (5 units, acquired
later), consuming 7 draws 5 from L1 and 2 from L2. -/
theorem claim2_fifo_order (table : List InventoryLot) (item_id quantity event_time : Int)
    (event_type : String) (note : Option String) (unit_price : Option Int)
    (hq : 0 < quantity) :
    List.Sorted fifoLotLE (selectLots table item_id) ∧
    (∀ i j (hj : j < (selectLots table item_id).length)
      (hj' : j < (consumeStep item_id event_type event_time unit_price note
        (selectLots table item_id) quantity).lots.length)
      (hi : i < (consumeStep item_id event_type event_time unit_price note
        (selectLots table item_id) quantity).lots.length),
      i < j →
      ((consumeStep item_id event_type event_time unit_price note
          (selectLots table item_id) quantity).lots[j]).quantity_remaining <
        ((selectLots table item_id)[j]).quantity_remaining →
      ((consumeStep item_id event_type event_time unit_price note
          (selectLots table item_id) quantity).lots[i]).quantity_remaining = 0) ∧
    consume_lot_fifo [⟨1, 7, 5, 5, 100, 10⟩, ⟨2, 7, 5, 5, 100, 20⟩] 7 7 999 "sale"
        none none false =
      ⟨[⟨1, 7, 5, 0, 100, 10⟩, ⟨2, 7, 5, 3, 100, 20⟩],
       [⟨"sale", 999, 7, 1, 5, none, none⟩, ⟨"sale", 999, 7, 2, 2, none, none⟩],
       .ok ⟨[⟨"sale", 999, 7, 1, 5, none, none⟩, ⟨"sale", 999, 7, 2, 2, none, none⟩],
         7, 7, 0, 10⟩⟩ := by
  refine ⟨selectLots_sorted table item_id, ?_, by decide⟩
  intro i j hj hj' hi hij hdec
  exact consumeStep_fifo_exhausts item_id event_type event_time unit_price note
    (selectLots table item_id) quantity
    (fun l hl => (mem_selectLots table item_id l hl).2.2) i j hj hj' hi hij hdec

theorem applyUpdates_mem (table updated : List InventoryLot) :
    ∀ l' ∈ applyUpdates table updated, l' ∈ table ∨ l' ∈ updated := by
  intro l' hl'
  unfold applyUpdates at hl'
  obtain ⟨row, hrow, hg⟩ := List.mem_map.mp hl'
  cases hfind : updated.find? (fun u => u.id == row.id) with
  | none => rw [hfind] at hg; exact Or.inl (hg ▸ hrow)
  | some u =>
    rw [hfind] at hg
    exact Or.inr (hg ▸ List.mem_of_find?_eq_some hfind)

/-- Claim C3: a freshly created lot starts with
`quantity_remaining = quantity_total > 0`, and FIFO consumption preserves
`0 ≤ quantity_remaining ≤ quantity_total` for every lot of the table while
never increasing any lot's `quantity_remaining` (rows are paired by their
unique primary key id). -/
theorem claim3_lot_invariant (item_id quantity unit_cost : Int) (acquired_at eve_time : Option Int)
    (note : Option String) (lot_id now : Int) (hq : 0 < quantity)
    (table : List InventoryLot) (q2 event_time : Int) (event_type : String)
    (note2 : Option String) (unit_price : Option Int) (ap : Bool)
    (hinv : ∀ l ∈ table, 0 ≤ l.quantity_remaining ∧ l.quantity_remaining ≤ l.quantity_total)
    (hnodup : (table.map (fun l => l.id)).Nodup) :
    (∃ lot ev, create_lot_from_import item_id quantity unit_cost acquired_at note eve_time
        lot_id now = .ok (lot, ev) ∧
      lot.quantity_remaining = lot.quantity_total ∧ lot.quantity_total = quantity ∧
      0 ≤ lot.quantity_remaining ∧ lot.quantity_remaining ≤ lot.quantity_total) ∧
    ((∀ l' ∈ (consume_lot_fifo table item_id q2 event_time event_type note2 unit_price
        ap).table, 0 ≤ l'.quantity_remaining ∧ l'.quantity_remaining ≤ l'.quantity_total) ∧
     (∀ l ∈ table, ∀ l' ∈ (consume_lot_fifo table item_id q2 event_time event_type note2
        unit_price ap).table, l'.id = l.id →
        l'.quantity_remaining ≤ l.quantity_remaining ∧
        l'.quantity_total = l.quantity_total)) := by
  constructor
  · have hc : create_lot_from_import item_id quantity unit_cost acquired_at note eve_time
        lot_id now = .ok (⟨lot_id, item_id, quantity, quantity, unit_cost,
          acquired_at.getD now⟩,
          ⟨"import", eve_time.getD (acquired_at.getD now), item_id, lot_id, quantity,
            some unit_cost, note⟩) := by
      unfold create_lot_from_import
      rw [if_neg (by omega : ¬ quantity ≤ 0)]
    exact ⟨_, _, hc, rfl, rfl, by dsimp only; omega, by dsimp only; omega⟩
  · -- identical rows pair up through id uniqueness
    have hpair : ∀ a ∈ table, ∀ b ∈ table, a.id = b.id → a = b := by
      intro a ha b hb hab
      exact List.inj_on_of_nodup_map hnodup ha hb hab
    -- facts about the updated lots produced by the consumption loop
    have hupd : ∀ u ∈ (consumeStep item_id event_type event_time unit_price note2
        (selectLots table item_id) q2).lots,
        ∃ sel, sel ∈ table ∧ u.id = sel.id ∧ u.quantity_total = sel.quantity_total ∧
          u.quantity_remaining ≤ sel.quantity_remaining ∧ 0 ≤ u.quantity_remaining := by
      intro u hu
      obtain ⟨sel, hsel, hid, _, htot, _, _, hle, hpos⟩ :=
        consumeStep_mem item_id event_type event_time unit_price note2
          (selectLots table item_id) q2 u hu
      obtain ⟨htab, _, hselpos⟩ := mem_selectLots table item_id sel hsel
      exact ⟨sel, htab, hid, htot, hle, hpos (le_of_lt hselpos)⟩
    -- the table after the call, in every branch of consume_lot_fifo
    have hbranch : (consume_lot_fifo table item_id q2 event_time event_type note2 unit_price
          ap).table = table ∨
        (consume_lot_fifo table item_id q2 event_time event_type note2 unit_price
          ap).table = applyUpdates table (consumeStep item_id event_type event_time
            unit_price note2 (selectLots table item_id) q2).lots := by
      unfold consume_lot_fifo
      by_cases h1 : q2 ≤ 0
      · simp [h1]
      · by_cases h2 : (!ap && decide (totalAvailable (selectLots table item_id) < q2)) = true
        · simp [h1, h2]
        · by_cases h3 : (consumeStep item_id event_type event_time unit_price note2
              (selectLots table item_id) q2).assert_failed
          · simp [h1, h2, h3]
          · simp [h1, h2, h3]
    constructor
    · intro l' hl'
      rcases hbranch with he | he
      · rw [he] at hl'; exact hinv l' hl'
      · rw [he] at hl'
        rcases applyUpdates_mem table _ l' hl' with h | h
        · exact hinv l' h
        · obtain ⟨sel, htab, _, htot, hle, hpos⟩ := hupd l' h
          obtain ⟨_, hseltot⟩ := hinv sel htab
          exact ⟨hpos, by omega⟩
    · intro l hl l' hl' hid
      rcases hbranch with he | he
      · rw [he] at hl'
        have := hpair l' hl' l hl hid
        subst this; exact ⟨le_refl _, rfl⟩
      · rw [he] at hl'
        unfold applyUpdates at hl'
        obtain ⟨row, hrow, hg⟩ := List.mem_map.mp hl'
        cases hfind : (consumeStep item_id event_type event_time unit_price note2
            (selectLots table item_id) q2).lots.find? (fun u => u.id == row.id) with
        | none =>
          rw [hfind] at hg
          subst hg
          have := hpair row hrow l hl hid
          subst this; exact ⟨le_refl _, rfl⟩
        | some u =>
          rw [hfind] at hg
          subst hg
          obtain ⟨sel, htab, hselid, htot, hle, hpos⟩ :=
            hupd u (List.mem_of_find?_eq_some hfind)
          have : sel = l := hpair sel htab l hl (hselid ▸ hid)
          subst this
          exact ⟨hle, htot⟩


/-- Witness for C1: 12 requested against 10 available fails with
`InsufficientInventoryError(requested 12, available 10)` and leaves the
table untouched. -/
theorem claim1_witness :
    0 < (12 : Int) ∧
    consume_lot_fifo [⟨1, 1, 5, 5, 100, 10⟩, ⟨2, 1, 5, 5, 100, 20⟩] 1 12 999 "sale"
        none none false =
      ⟨[⟨1, 1, 5, 5, 100, 10⟩, ⟨2, 1, 5, 5, 100, 20⟩], [],
        .error (.insufficient 1 12
          (totalAvailable (selectLots [⟨1, 1, 5, 5, 100, 10⟩, ⟨2, 1, 5, 5, 100, 20⟩] 1)))⟩ :=
  ⟨by decide,
   claim1_insufficient_fails_before_write _ 1 12 999 "sale" none none (by decide) (by decide)⟩

/-- Witness for C2 at the concrete two-lot table. -/
theorem claim2_witness :
    0 < (7 : Int) ∧
    (List.Sorted fifoLotLE (selectLots fifoWitnessTable 7) ∧
     (∀ i j (hj : j < (selectLots fifoWitnessTable 7).length)
       (hj' : j < (consumeStep 7 "sale" 999 none none
         (selectLots fifoWitnessTable 7) 7).lots.length)
       (hi : i < (consumeStep 7 "sale" 999 none none
         (selectLots fifoWitnessTable 7) 7).lots.length),
       i < j →
       ((consumeStep 7 "sale" 999 none none
           (selectLots fifoWitnessTable 7) 7).lots[j]).quantity_remaining <
         ((selectLots fifoWitnessTable 7)[j]).quantity_remaining →
       ((consumeStep 7 "sale" 999 none none
           (selectLots fifoWitnessTable 7) 7).lots[i]).quantity_remaining = 0) ∧
     consume_lot_fifo [⟨1, 7, 5, 5, 100, 10⟩, ⟨2, 7, 5, 5, 100, 20⟩] 7 7 999 "sale"
         none none false =
       ⟨[⟨1, 7, 5, 0, 100, 10⟩, ⟨2, 7, 5, 3, 100, 20⟩],
        [⟨"sale", 999, 7, 1, 5, none, none⟩, ⟨"sale", 999, 7, 2, 2, none, none⟩],
        .ok ⟨[⟨"sale", 999, 7, 1, 5, none, none⟩, ⟨"sale", 999, 7, 2, 2, none, none⟩],
          7, 7, 0, 10⟩⟩) :=
  ⟨by decide, claim2_fifo_order fifoWitnessTable 7 7 999 "sale" none none (by decide)⟩

/-- Witness for C3: creating a lot of 5 units and consuming 3 of item 1
from a one-lot table holding 4 units. -/
theorem claim3_witness :
    0 < (5 : Int) ∧
    ((∃ lot ev, create_lot_from_import 1 5 100 none none none 9 50 = .ok (lot, ev) ∧
      lot.quantity_remaining = lot.quantity_total ∧ lot.quantity_total = 5 ∧
      0 ≤ lot.quantity_remaining ∧ lot.quantity_remaining ≤ lot.quantity_total) ∧
    ((∀ l' ∈ (consume_lot_fifo [⟨1, 1, 10, 4, 100, 10⟩] 1 3 999 "sale" none none
        true).table, 0 ≤ l'.quantity_remaining ∧ l'.quantity_remaining ≤ l'.quantity_total) ∧
     (∀ l ∈ [(⟨1, 1, 10, 4, 100, 10⟩ : InventoryLot)],
        ∀ l' ∈ (consume_lot_fifo [⟨1, 1, 10, 4, 100, 10⟩] 1 3 999 "sale" none none
          true).table, l'.id = l.id →
        l'.quantity_remaining ≤ l.quantity_remaining ∧
        l'.quantity_total = l.quantity_total))) :=
  ⟨by decide,
   claim3_lot_invariant 1 5 100 none none none 9 50 (by decide)
     [⟨1, 1, 10, 4, 100, 10⟩] 3 999 "sale" none none true (by decide) (by decide)⟩

/-- Witness for C10: a zero-quantity request on a non-empty table. -/
theorem claim10_witness :
    (0 : Int) ≤ 0 ∧
    consume_lot_fifo [⟨1, 1, 5, 5, 100, 10⟩] 1 0 999 "sale" none none true =
      ⟨[⟨1, 1, 5, 5, 100, 10⟩], [], .ok ⟨[], 0, 0, 0, 0⟩⟩ :=
  ⟨le_refl 0, claim10_nonpositive_request_noop _ 1 0 999 "sale" none none true (le_refl 0)⟩

theorem if_gt_eq_max (m c : Int) : (if c > m then c else m) = max m c := by
  split <;> omega

theorem syncStep_ok_new_last_id (character : EveCharacter) (last_id : Option Int)
    (item_of : Int → Int) (acc acc' : SyncAcc) (tx : WalletTx)
    (h : syncStep character last_id item_of acc tx = .ok acc') :
    acc'.new_last_id =
      if countedTx last_id tx then max acc.new_last_id tx.transaction_id
      else acc.new_last_id := by
  unfold syncStep at h
  simp only [] at h
  split at h
  · -- skipped: at or below the cursor
    next hcur =>
    cases h
    cases last_id with
    | none => simp at hcur
    | some l =>
      simp only [decide_eq_true_eq] at hcur
      have hc : countedTx (some l) tx = false := by
        unfold countedTx
        simp
        omega
      simp [hc]
  · next hcur =>
    split at h
    · -- skipped: non-positive quantity
      next hq =>
      cases h
      have hc : countedTx last_id tx = false := by
        unfold countedTx
        have hd : decide (tx.quantity > 0) = false := by simp; omega
        simp [hd]
      simp [hc]
    · next hq =>
      have hc : countedTx last_id tx = true := by
        unfold countedTx
        cases last_id with
        | none => simp; omega
        | some l =>
          simp only [decide_eq_true_eq] at hcur
          simp
          omega
      rw [hc, if_pos rfl]
      split at h
      · -- buy side
        split at h
        · cases h; exact if_gt_eq_max _ _
        · cases h; exact if_gt_eq_max _ _
      · -- sell side
        split at h
        · cases h; exact if_gt_eq_max _ _
        · split at h
          · simp at h
          · next lots' emitted sstats heq =>
            cases h
            exact if_gt_eq_max _ _

theorem syncStep_skip_le_cursor (character : EveCharacter) (c : Int)
    (item_of : Int → Int) (acc : SyncAcc) (tx : WalletTx)
    (hle : tx.transaction_id ≤ c) :
    syncStep character (some c) item_of acc tx = .ok acc := by
  unfold syncStep
  rw [if_pos]
  simp [hle]

theorem syncLoop_new_last_id (character : EveCharacter) (last_id : Option Int)
    (item_of : Int → Int) :
    ∀ (txs : List WalletTx) (acc acc' : SyncAcc),
      txs.foldlM (syncStep character last_id item_of) acc = .ok acc' →
      acc'.new_last_id = txs.foldl
        (fun m t => if countedTx last_id t then max m t.transaction_id else m)
        acc.new_last_id := by
  intro txs
  induction txs with
  | nil =>
    intro acc acc' h
    simp only [List.foldlM_nil] at h
    cases h
    simp
  | cons t ts ih =>
    intro acc acc' h
    simp only [List.foldlM_cons] at h
    cases hstep : syncStep character last_id item_of acc t with
    | error e =>
      rw [hstep] at h
      exact Except.noConfusion h
    | ok acc1 =>
      rw [hstep] at h
      have hbind : ts.foldlM (syncStep character last_id item_of) acc1 = .ok acc' := h
      have h1 := syncStep_ok_new_last_id character last_id item_of acc acc1 t hstep
      rw [List.foldl_cons, ← h1]
      exact ih acc1 acc' hbind

theorem foldl_max_filter (p : WalletTx → Bool) :
    ∀ (txs : List WalletTx) (base : Int),
      (txs.filter p).foldl (fun m t => max m t.transaction_id) base =
        txs.foldl (fun m t => if p t then max m t.transaction_id else m) base := by
  intro txs
  induction txs with
  | nil => intro base; simp
  | cons t ts ih =>
    intro base
    by_cases hp : p t
    · simp [List.filter_cons, hp, ih]
    · simp [List.filter_cons, hp, ih]

theorem foldl_max_ge_base (p : WalletTx → Bool) :
    ∀ (txs : List WalletTx) (base : Int),
      base ≤ txs.foldl (fun m t => if p t then max m t.transaction_id else m) base := by
  intro txs
  induction txs with
  | nil => intro base; simp
  | cons t ts ih =>
    intro base
    rw [List.foldl_cons]
    refine le_trans ?_ (ih _)
    split <;> omega

theorem save_state_set (st : Option EsiWalletSyncState) (v : Int) (status : String) :
    (_save_wallet_sync_state st (some v) status).last_transaction_id = some v := by
  cases st <;> rfl

theorem save_state_keep (st : Option EsiWalletSyncState) (status : String) :
    (_save_wallet_sync_state st none status).last_transaction_id =
      (match st with | some s => s.last_transaction_id | none => none) := by
  cases st <;> rfl

theorem sync_ok_state (w : LedgerWorld) (character : EveCharacter)
    (tx_data : List WalletTx) (item_of : Int → Int) (w' : LedgerWorld) (stats : SyncStats)
    (hscan : character.wallet_scan_buys = true ∨ character.wallet_scan_sells = true)
    (h : _sync_wallet_for_character w character tx_data item_of = .ok (w', stats)) :
    ∃ s, w'.state = some s ∧
      s.last_transaction_id =
        (if cursorOf w = none ∨ (cursorOf w).getD 0 < observedHwm (cursorOf w) tx_data
         then some (observedHwm (cursorOf w) tx_data)
         else cursorOf w) := by
  have hb : (!character.wallet_scan_buys && !character.wallet_scan_sells) = false := by
    rcases hscan with h' | h' <;> simp [h']
  simp only [_sync_wallet_for_character, hb, Bool.false_eq_true, if_false] at h
  cases hacc : (List.insertionSort txLE tx_data).foldlM
      (syncStep character (cursorOf w) item_of)
      ⟨w.lots, w.events, w.queue, (cursorOf w).getD 0, initialSyncStats⟩ with
  | error e =>
    rw [hacc] at h
    exact Except.noConfusion h
  | ok acc =>
    rw [hacc] at h
    simp only [Except.ok.injEq, Prod.mk.injEq] at h
    obtain ⟨hw, hs⟩ := h
    subst hw
    have hn : acc.new_last_id = observedHwm (cursorOf w) tx_data := by
      have h1 := syncLoop_new_last_id character (cursorOf w) item_of
        (List.insertionSort txLE tx_data) _ acc hacc
      rw [h1]
      unfold observedHwm
      rw [foldl_max_filter]
    refine ⟨_, rfl, ?_⟩
    cases hcur : cursorOf w with
    | none =>
      rw [hcur] at hn
      have harg : (if (match (none : Option Int) with
          | none => true
          | some l => decide (acc.new_last_id > l)) = true then some acc.new_last_id
          else none) = some acc.new_last_id := by simp
      rw [harg, save_state_set, if_pos (Or.inl rfl), hn]
    | some l =>
      rw [hcur] at hn
      by_cases hl : acc.new_last_id > l
      · have harg : (if (match (some l : Option Int) with
            | none => true
            | some l => decide (acc.new_last_id > l)) = true then some acc.new_last_id
            else none) = some acc.new_last_id := by simp [hl]
        rw [harg, save_state_set, if_pos (Or.inr (by simp only [Option.getD_some]; omega)),
          hn]
      · have harg : (if (match (some l : Option Int) with
            | none => true
            | some l => decide (acc.new_last_id > l)) = true then some acc.new_last_id
            else none) = none := by simp [hl]
        have hcond : ¬ ((some l : Option Int) = none ∨
            (some l : Option Int).getD 0 < observedHwm (some l) tx_data) := by
          push_neg
          refine ⟨by simp, ?_⟩
          simp only [Option.getD_some]
          rw [← hn]
          omega
        rw [harg, save_state_keep, if_neg hcond]
        unfold cursorOf at hcur
        exact hcur

theorem syncLoop_skip (character : EveCharacter) (c : Int) (item_of : Int → Int) :
    ∀ (txs : List WalletTx) (acc : SyncAcc), (∀ t ∈ txs, t.transaction_id ≤ c) →
      txs.foldlM (syncStep character (some c) item_of) acc = .ok acc := by
  intro txs
  induction txs with
  | nil => intro acc _; rfl
  | cons t ts ih =>
    intro acc hle
    rw [List.foldlM_cons,
      syncStep_skip_le_cursor character c item_of acc t (hle t (List.mem_cons_self _ _))]
    show ts.foldlM (syncStep character (some c) item_of) acc = .ok acc
    exact ih acc (fun u hu => hle u (List.mem_cons_of_mem _ hu))

/-- Claim C4 (amended): the persisted high-water mark of a successful run
with at least one scan toggle enabled equals the maximum of the old
cursor's base value and every transaction id above the old cursor that was
enqueued, consumed, or skipped because a scan toggle is disabled; rows
skipped for zero-or-negative quantity do not contribute (`countedTx`);
the value overwrites the stored cursor only when it exceeds it. -/
theorem claim4_high_water_mark (w : LedgerWorld) (character : EveCharacter)
    (tx_data : List WalletTx) (item_of : Int → Int) (w' : LedgerWorld) (stats : SyncStats)
    (hscan : character.wallet_scan_buys = true ∨ character.wallet_scan_sells = true)
    (h : _sync_wallet_for_character w character tx_data item_of = .ok (w', stats)) :
    ∃ s, w'.state = some s ∧
      s.last_transaction_id =
        (if cursorOf w = none ∨ (cursorOf w).getD 0 < observedHwm (cursorOf w) tx_data
         then some (observedHwm (cursorOf w) tx_data)
         else cursorOf w) :=
  sync_ok_state w character tx_data item_of w' stats hscan h

/-- Counterexample to C4 as stated: with cursor 5 and a single buy row of
quantity 0 at transaction id 10, the run succeeds but the stored cursor
stays at 5 instead of advancing to the claimed maximum observed id 10. -/
theorem claim4_counterexample :
    runCursor (_sync_wallet_for_character ⟨[], [], [], some ⟨some 5, none⟩⟩
      ⟨1, 101, true, true⟩ [⟨10, 0, true, 77, 3, 1000⟩] (fun t => t)) = some 5 ∧
    runCursor (_sync_wallet_for_character ⟨[], [], [], some ⟨some 5, none⟩⟩
      ⟨1, 101, true, true⟩ [⟨10, 0, true, 77, 3, 1000⟩] (fun t => t)) ≠ some 10 := by
  decide

/-- Claim C5: a successful sync never decreases the stored cursor, and it
overwrites the stored value only with a strictly greater high-water
mark. -/
theorem claim5_cursor_monotonic (w : LedgerWorld) (character : EveCharacter)
    (tx_data : List WalletTx) (item_of : Int → Int) (w' : LedgerWorld) (stats : SyncStats)
    (h : _sync_wallet_for_character w character tx_data item_of = .ok (w', stats))
    (v : Int) (hv : cursorOf w = some v) :
    ∃ v', cursorOf w' = some v' ∧ v ≤ v' ∧ (cursorOf w' = cursorOf w ∨ v < v') := by
  by_cases htog : (!character.wallet_scan_buys && !character.wallet_scan_sells) = true
  · simp only [_sync_wallet_for_character, htog, if_true] at h
    simp only [Except.ok.injEq, Prod.mk.injEq] at h
    obtain ⟨hw, _⟩ := h
    subst hw
    refine ⟨v, ?_, le_refl v, Or.inl ?_⟩
    · show (_save_wallet_sync_state w.state none "skipped").last_transaction_id = some v
      rw [save_state_keep]
      unfold cursorOf at hv
      exact hv
    · show (_save_wallet_sync_state w.state none "skipped").last_transaction_id = cursorOf w
      rw [save_state_keep, hv]
      unfold cursorOf at hv
      exact hv
  · have hscan : character.wallet_scan_buys = true ∨ character.wallet_scan_sells = true := by
      by_cases hb : character.wallet_scan_buys = true
      · exact Or.inl hb
      · by_cases hs : character.wallet_scan_sells = true
        · exact Or.inr hs
        · exact absurd (by simp_all) htog
    obtain ⟨s, hstate, hlt⟩ := sync_ok_state w character tx_data item_of w' stats hscan h
    have hcw' : cursorOf w' = s.last_transaction_id := by
      unfold cursorOf
      rw [hstate]
    rw [hv] at hlt
    by_cases hgt : v < observedHwm (some v) tx_data
    · rw [if_pos (Or.inr (by simp only [Option.getD_some]; omega))] at hlt
      refine ⟨observedHwm (some v) tx_data, ?_, by omega, Or.inr hgt⟩
      rw [hcw', hlt]
    · rw [if_neg ?hc] at hlt
      case hc =>
        push_neg
        exact ⟨Option.noConfusion, by simp only [Option.getD_some]; omega⟩
      refine ⟨v, ?_, le_refl v, Or.inl ?_⟩
      · rw [hcw', hlt]
      · rw [hcw', hlt, hv]

/-- Claim C6: replaying a sync whose cursor is already at or above every
remote transaction id yields zero new transactions and leaves the ledger
(lot table and audit events) and the pending-review queue unchanged; and
enqueueing a buy whose `(character, transaction)` key is already queued is
a no-op that creates no second entry. -/
theorem claim6_replay_idempotent :
    (∀ (w : LedgerWorld) (character : EveCharacter) (tx_data : List WalletTx)
      (item_of : Int → Int) (c : Int) (w' : LedgerWorld) (stats : SyncStats),
      cursorOf w = some c → (∀ t ∈ tx_data, t.transaction_id ≤ c) →
      _sync_wallet_for_character w character tx_data item_of = .ok (w', stats) →
      stats.new_transactions = 0 ∧ w'.lots = w.lots ∧ w'.events = w.events ∧
        w'.queue = w.queue) ∧
    (∀ (queue : List EsiWalletQueueEntry) (character : EveCharacter) (tx : WalletTx)
      (item_id : Int), tx.is_buy = true →
      (∃ e ∈ queue, e.source_kind = "character" ∧ e.character_id = character.id ∧
        e.transaction_id = tx.transaction_id) →
      _enqueue_wallet_tx queue character tx item_id = (queue, false)) := by
  constructor
  · intro w character tx_data item_of c w' stats hv hle h
    by_cases htog : (!character.wallet_scan_buys && !character.wallet_scan_sells) = true
    · simp only [_sync_wallet_for_character, htog, if_true] at h
      simp only [Except.ok.injEq, Prod.mk.injEq] at h
      obtain ⟨hw, hs⟩ := h
      subst hw
      subst hs
      exact ⟨rfl, rfl, rfl, rfl⟩
    · simp only [_sync_wallet_for_character, htog, Bool.false_eq_true, if_false] at h
      rw [hv] at h
      have hsorted : ∀ t ∈ List.insertionSort txLE tx_data, t.transaction_id ≤ c := by
        intro t ht
        exact hle t ((List.perm_insertionSort txLE tx_data).mem_iff.mp ht)
      rw [syncLoop_skip character c item_of (List.insertionSort txLE tx_data)
        ⟨w.lots, w.events, w.queue, (some c).getD 0, initialSyncStats⟩ hsorted] at h
      simp only [Except.ok.injEq, Prod.mk.injEq] at h
      obtain ⟨hw, hs⟩ := h
      subst hw
      subst hs
      exact ⟨rfl, rfl, rfl, rfl⟩
  · intro queue character tx item_id hbuy hex
    obtain ⟨e, he, h1, h2, h3⟩ := hex
    have hsome : (queue.find? (fun e => e.source_kind == "character" &&
        e.character_id == character.id && e.transaction_id == tx.transaction_id)).isSome
          = true :=
      List.find?_isSome.mpr ⟨e, he, by simp [h1, h2, h3]⟩
    unfold _enqueue_wallet_tx
    rw [hbuy]
    simp only [Bool.not_true, Bool.false_eq_true, if_false, hsome, if_true]

/-- Witness for the amended C4 at a concrete run: cursor 5, one counted
buy at id 10 advances the stored cursor to the high-water mark 10. -/
theorem claim4_witness :
    ∃ s, (⟨[], [],
        [⟨"character", 1, 10, "import", 77, 2, 3, 1000, "pending"⟩],
        some ⟨some 10, some "ok"⟩⟩ : LedgerWorld).state = some s ∧
      s.last_transaction_id =
        (if cursorOf ⟨[], [], [], some ⟨some 5, none⟩⟩ = none ∨
            (cursorOf ⟨[], [], [], some ⟨some 5, none⟩⟩).getD 0 <
              observedHwm (cursorOf ⟨[], [], [], some ⟨some 5, none⟩⟩)
                [⟨10, 2, true, 77, 3, 1000⟩]
         then some (observedHwm (cursorOf ⟨[], [], [], some ⟨some 5, none⟩⟩)
            [⟨10, 2, true, 77, 3, 1000⟩])
         else cursorOf ⟨[], [], [], some ⟨some 5, none⟩⟩) :=
  claim4_high_water_mark ⟨[], [], [], some ⟨some 5, none⟩⟩ ⟨1, 101, true, true⟩
    [⟨10, 2, true, 77, 3, 1000⟩] (fun t => t)
    ⟨[], [], [⟨"character", 1, 10, "import", 77, 2, 3, 1000, "pending"⟩],
      some ⟨some 10, some "ok"⟩⟩
    ⟨1, 1, 0, 0, 0, 0, false, "ok"⟩ (Or.inl rfl) (by decide)

/-- Witness for C5 at the same concrete run: the cursor moves from 5 to
10, strictly increasing. -/
theorem claim5_witness :
    ∃ v', cursorOf (⟨[], [],
        [⟨"character", 1, 10, "import", 77, 2, 3, 1000, "pending"⟩],
        some ⟨some 10, some "ok"⟩⟩ : LedgerWorld) = some v' ∧ (5 : Int) ≤ v' ∧
      (cursorOf (⟨[], [],
          [⟨"character", 1, 10, "import", 77, 2, 3, 1000, "pending"⟩],
          some ⟨some 10, some "ok"⟩⟩ : LedgerWorld) =
        cursorOf ⟨[], [], [], some ⟨some 5, none⟩⟩ ∨ (5 : Int) < v') :=
  claim5_cursor_monotonic ⟨[], [], [], some ⟨some 5, none⟩⟩ ⟨1, 101, true, true⟩
    [⟨10, 2, true, 77, 3, 1000⟩] (fun t => t)
    ⟨[], [], [⟨"character", 1, 10, "import", 77, 2, 3, 1000, "pending"⟩],
      some ⟨some 10, some "ok"⟩⟩
    ⟨1, 1, 0, 0, 0, 0, false, "ok"⟩ (by decide) 5 (by decide)

/-- Witness for C6: replaying with the cursor already at the maximum id
100 changes nothing, and re-enqueueing an already-queued buy is a no-op. -/
theorem claim6_witness :
    ((⟨0, 0, 0, 0, 0, 0, false, "ok"⟩ : SyncStats).new_transactions = 0 ∧
      ([] : List InventoryLot) = [] ∧ ([] : List InventoryEvent) = [] ∧
      ([] : List EsiWalletQueueEntry) = []) ∧
    _enqueue_wallet_tx [⟨"character", 1, 10, "import", 7, 2, 3, 50, "pending"⟩]
        ⟨1, 101, true, true⟩ ⟨10, 2, true, 7, 3, 60⟩ 7 =
      ([⟨"character", 1, 10, "import", 7, 2, 3, 50, "pending"⟩], false) :=
  ⟨claim6_replay_idempotent.1 ⟨[], [], [], some ⟨some 100, none⟩⟩ ⟨1, 101, true, true⟩
      [⟨100, 5, true, 7, 3, 50⟩] (fun t => t) 100
      ⟨[], [], [], some ⟨some 100, some "ok"⟩⟩ ⟨0, 0, 0, 0, 0, 0, false, "ok"⟩
      (by decide) (by decide) (by decide),
   claim6_replay_idempotent.2 [⟨"character", 1, 10, "import", 7, 2, 3, 50, "pending"⟩]
      ⟨1, 101, true, true⟩ ⟨10, 2, true, 7, 3, 60⟩ 7 rfl
      ⟨⟨"character", 1, 10, "import", 7, 2, 3, 50, "pending"⟩, by decide, rfl, rfl, rfl⟩⟩

/-- Claim C8: an HTTP 420 response arms the Error-Budget Governor's
cooldown — for the reset-header duration, or the 60-second default when
the header is absent or zero — and the call fails immediately with a
throttling error; the remaining scripted attempts are left unconsumed, so
no retry happens within the same call, however many attempts remain. -/
theorem claim8_420_fails_immediately (n : Nat) (now : Int) (cache_present : Bool)
    (gov : Option Int) (script : List AttemptOutcome) (r : HttpResponse)
    (h420 : r.status = 420) :
    _request_with_retries now cache_present (n + 1) gov (.response r :: script) =
      ⟨some (now + max (pyOr r.reset 60) 1), script, .error ⟨.throttle, 420⟩⟩ := by
  simp only [_request_with_retries, List.headD_cons, List.tail_cons]
  cases hrem : r.remain <;> cases hres : r.reset <;>
    simp [h420, ERROR_LIMIT_THRESHOLD, pyOr]

/-- Witness for C8 with two attempts remaining and `reset = 30`. -/
theorem claim8_witness :
    (420 : Nat) = 420 ∧
    _request_with_retries 0 false 3 none
        [.response ⟨420, some 1, some 30, none, none, none⟩, .transport_error] =
      ⟨some 30, [.transport_error], .error ⟨.throttle, 420⟩⟩ :=
  ⟨rfl, claim8_420_fails_immediately 2 0 false none [.transport_error]
    ⟨420, some 1, some 30, none, none, none⟩ rfl⟩

/-- Claim C9: a fetch whose path does not start with a slash fails
immediately with the value error, touching neither the cache nor the
governor nor the network script and sending no request header. -/
theorem claim9_path_guard (w : GatewayWorld) (path params identity : String)
    (force_refresh : Bool) (now : Int)
    (h : (path.data.head? == some '/') = false) :
    esi_get w path params identity force_refresh now =
      ⟨w, none, .error ⟨.value_error, -1⟩⟩ := by
  unfold esi_get
  rw [h]
  rfl

/-- Witness for C9: path `latest/x` with a populated world. -/
theorem claim9_witness :
    (("latest/x".data.head? == some '/') = false) ∧
    esi_get ⟨[(("/a", "", "public"), ⟨some 1, some 5, none⟩)], some 7, [.transport_error]⟩
        "latest/x" "extra" "public" false 3 =
      ⟨⟨[(("/a", "", "public"), ⟨some 1, some 5, none⟩)], some 7, [.transport_error]⟩,
        none, .error ⟨.value_error, -1⟩⟩ :=
  ⟨by decide, claim9_path_guard
    ⟨[(("/a", "", "public"), ⟨some 1, some 5, none⟩)], some 7, [.transport_error]⟩
    "latest/x" "extra" "public" false 3 (by decide)⟩

/-- Claim C7 (amended): (a) a cache lookup never returns an entry whose
expiry has passed, so expired data is never served; (b) a lookup of an
entry past its `expires_at` evicts it and reports a miss, whether or not
the entry carries a revalidation tag — entries are NOT kept past expiry;
(c) the conditional-request header is populated from the tag of a live
(non-expired) entry that retains no data. -/
theorem claim7_cache_expiry (cache : Cache) (key : CacheKey) (now : Int) :
    (∀ cache' entry, _get_cached_response cache key now = (cache', some entry) →
      ∀ v, entry.expires_at = some v → now < v) ∧
    (∀ kv v, cache.find? (fun kv => kv.1 == key) = some kv →
      kv.2.expires_at = some v → v ≤ now →
      _get_cached_response cache key now = (cache.eraseP (fun kv => kv.1 == key), none)) ∧
    (∀ (w : GatewayWorld) (path params identity : String) cache' entry,
      (path.data.head? == some '/') = true →
      _get_cached_response w.cache (path, params, identity) now = (cache', some entry) →
      entry.data = none →
      (esi_get w path params identity false now).sent_if_none_match = entry.etag) := by
  refine ⟨?_, ?_, ?_⟩
  · intro cache' entry h v hv
    unfold _get_cached_response at h
    cases hfind : cache.find? (fun kv => kv.1 == key) with
    | none => rw [hfind] at h; cases h
    | some kv =>
      rw [hfind] at h
      dsimp only at h
      cases hexp : kv.2.expires_at with
      | none =>
        rw [hexp] at h
        dsimp only at h
        cases h
        rw [hexp] at hv
        cases hv
      | some u =>
        rw [hexp] at h
        dsimp only at h
        by_cases hle : u ≤ now
        · rw [if_pos hle] at h
          cases h
        · rw [if_neg hle] at h
          cases h
          rw [hexp] at hv
          cases hv
          omega
  · intro kv v hfind hexp hle
    unfold _get_cached_response
    rw [hfind]
    dsimp only
    rw [hexp]
    dsimp only
    rw [if_pos hle]
  · intro w path params identity cache' entry hpath hconsult hdata
    unfold esi_get
    rw [hpath]
    simp only [Bool.not_true, Bool.false_eq_true, if_false, Bool.not_false,
      eq_self_iff_true, if_true, hconsult]
    rw [hdata]
    simp only [Option.isSome_none, Bool.false_eq_true, if_false]
    unfold esiGetRequest
    split
    next e heq =>
      cases heq
      dsimp only
      cases har : (_request_with_retries now (some entry).isSome MAX_RETRIES w.governor
          w.script).result with
      | ok resp =>
        dsimp only
        split
        · rfl
        · rfl
      | error e2 => rfl
    next heq => exact Option.noConfusion heq

/-- Counterexample to C7 as stated: an entry with revalidation tag 7,
expired at 5, looked up at 10 is evicted (not kept), and the subsequent
fetch issues its request with no conditional header. -/
theorem claim7_counterexample :
    _get_cached_response [(("/a", "", "public"), ⟨some 3, some 5, some 7⟩)]
        ("/a", "", "public") 10 = ([], none) ∧
    (esi_get ⟨[(("/a", "", "public"), ⟨some 3, some 5, some 7⟩)], none,
        [.response ⟨200, none, none, some 9, none, none⟩]⟩
      "/a" "" "public" false 10).sent_if_none_match = none := by
  decide

/-- Witness for the amended C7 at a concrete cache: a live tagged entry
with no retained data populates the conditional header with its tag. -/
theorem claim7_witness :
    (∀ cache' entry,
      _get_cached_response [(("/a", "", "public"), ⟨none, some 50, some 7⟩)]
        ("/a", "", "public") 10 = (cache', some entry) →
      ∀ v, entry.expires_at = some v → (10 : Int) < v) ∧
    (∀ kv v,
      ([(("/a", "", "public"), ⟨none, some 50, some 7⟩)] : Cache).find?
          (fun kv => kv.1 == ("/a", "", "public")) = some kv →
      kv.2.expires_at = some v → v ≤ 10 →
      _get_cached_response [(("/a", "", "public"), ⟨none, some 50, some 7⟩)]
          ("/a", "", "public") 10 =
        (([(("/a", "", "public"), ⟨none, some 50, some 7⟩)] : Cache).eraseP
          (fun kv => kv.1 == ("/a", "", "public")), none)) ∧
    (∀ (w : GatewayWorld) (path params identity : String) cache' entry,
      (path.data.head? == some '/') = true →
      _get_cached_response w.cache (path, params, identity) 10 = (cache', some entry) →
      entry.data = none →
      (esi_get w path params identity false 10).sent_if_none_match = entry.etag) :=
  claim7_cache_expiry [(("/a", "", "public"), ⟨none, some 50, some 7⟩)]
    ("/a", "", "public") 10

end EI
